import Mathlib

/-!
Verification of the project-libris ingestion and scoring pipeline.

The definitions below are a shallow embedding of the Python sources:
  * `app/services/sentiment.py`   — the three sentiment analyzers
  * `app/services/ingest.py`      — header stripping and paragraph chunking
  * `app/services/gutenberg/client.py`   — the fetch client's retry policy
  * `app/services/gutenberg/pipeline.py` — the batch orchestrator

Python floats are modelled as rationals (the operations involved are
decimal constants, +, *, /, min, max, so ordering facts transfer), the
TextBlob library is modelled as an abstract measurement function
`String → Blob`, and HTTP traffic is modelled by a response oracle.
-/

set_option maxRecDepth 8192

namespace Libris
/-- Whitespace test used to model Python's `\s` character class, `str.split()`
and `str.strip()` (restricted to the ASCII whitespace characters). -/
def isPySpace (c : Char) : Bool :=
  c == ' ' || c == '\t' || c == '\n' || c == '\r' || c == '\x0b' || c == '\x0c'

/-- `isPrefixB n h` : the list `n` is a prefix of `h`. -/
def isPrefixB : List Char → List Char → Bool
  | [], _ => true
  | _ :: _, [] => false
  | a :: as, b :: bs => a == b && isPrefixB as bs

/-- `isSubB n h` : the list `n` occurs contiguously inside `h`.
Models Python's `in` operator on strings. -/
def isSubB (needle : List Char) : List Char → Bool
  | [] => isPrefixB needle []
  | c :: rest => isPrefixB needle (c :: rest) || isSubB needle rest

/-- Python's `str.lower` (ASCII case folding, which is all the keyword
matching in the source needs). -/
def pyLower (s : String) : String :=
  String.mk (s.data.map Char.toLower)

/-- `strContains s w` models Python's `w in s` on strings. -/
def strContains (s w : String) : Bool :=
  isSubB w.data s.data

/-! ## Sentiment analyzers (`app/services/sentiment.py`) -/

/-- The pair of measurements `TextBlob(text).sentiment` returns:
`polarity` (native range [-1, 1]) and `subjectivity` (native range [0, 1]).
The library itself is external; it enters the model as a function
`tb : String → Blob`. -/
structure Blob where
  polarity : ℚ
  subjectivity : ℚ

/-- `TextBlobAnalyzer.analyze`: polarity mapped linearly from [-1, 1] to [0, 1]. -/
def textBlobAnalyze (tb : String → Blob) (text : String) : ℚ :=
  ((tb text).polarity + 1) / 2

/-- `HybridAnalyzer.analyze`: 70% polarity (normalized), 30% subjectivity,
clamped to [0, 1]. -/
def hybridAnalyze (tb : String → Blob) (text : String) : ℚ :=
  let polarity_score := ((tb text).polarity + 1) / 2
  let subjectivity := (tb text).subjectivity
  let combined := polarity_score * 0.7 + subjectivity * 0.3
  min (max combined 0.0) 1.0

/-- `LiteraryAnalyzer.POSITIVE_WORDS` (the Python set, as a duplicate-free list). -/
def POSITIVE_WORDS : List String :=
  ["beautiful", "wonder", "joy", "love", "hope", "dream", "light", "bright",
   "golden", "gentle", "peace", "warm", "sweet", "grace", "glory"]

/-- `LiteraryAnalyzer.DESCRIPTIVE_WORDS`. -/
def DESCRIPTIVE_WORDS : List String :=
  ["gleaming", "vast", "ancient", "whispered", "echoed", "shimmering",
   "towering", "sprawling", "delicate", "magnificent", "mysterious", "ethereal"]

/-- `text.count('"')`. -/
def countQuotes (text : String) : Nat :=
  text.data.count '"'

/-- `LiteraryAnalyzer.analyze`: hybrid base score plus a capped keyword /
dialogue bonus, clamped to [0, 1]. -/
def literaryAnalyze (tb : String → Blob) (text : String) : ℚ :=
  let base_score := hybridAnalyze tb text
  let text_lower := pyLower text
  let bonus_pos := POSITIVE_WORDS.foldl
    (fun acc w => if strContains text_lower w then acc + 0.015 else acc) 0.0
  let bonus_desc := DESCRIPTIVE_WORDS.foldl
    (fun acc w => if strContains text_lower w then acc + 0.01 else acc) bonus_pos
  let bonus_quotes := if 4 ≤ countQuotes text then bonus_desc + 0.03 else bonus_desc
  let keyword_bonus := min bonus_quotes 0.15
  let final_score := base_score + keyword_bonus
  min (max final_score 0.0) 1.0

/-- A fixed measurement function used to instantiate witness statements. -/
def tbZero : String → Blob := fun _ => ⟨0, 0⟩

/-! ## Text processing (`app/services/ingest.py`) -/

/-- `str.strip()`: drop leading and trailing whitespace from a character list. -/
def pyStrip (l : List Char) : List Char :=
  ((l.dropWhile isPySpace).reverse.dropWhile isPySpace).reverse

/-- `str.strip()` on strings. -/
def pyStripStr (s : String) : String :=
  String.mk (pyStrip s.data)

/-- `str.split()` worker: split on whitespace runs, producing no empty
tokens. `cur` holds the current in-progress token, reversed. -/
def pyWordsAux : List Char → List Char → List (List Char)
  | cur, [] => if cur.isEmpty then [] else [cur.reverse]
  | cur, c :: rest =>
    if isPySpace c then
      if cur.isEmpty then pyWordsAux [] rest
      else cur.reverse :: pyWordsAux [] rest
    else pyWordsAux (c :: cur) rest

/-- `str.split()` on strings. -/
def pySplit (s : String) : List String :=
  (pyWordsAux [] s.data).map String.mk

/-- `' '.join(para.split())` — the per-paragraph whitespace cleanup of
`chunk_text`. -/
def collapseWs (s : String) : String :=
  String.intercalate " " (pySplit s)

/-- `len(para.split())` — the word count used by `chunk_text`. -/
def numWords (s : String) : Nat :=
  (pySplit s).length

/-- Index of the last newline of a character list, if any. -/
def lastNlIdx : List Char → Option Nat
  | [] => none
  | c :: rest =>
    match lastNlIdx rest with
    | some i => some (i + 1)
    | none => if c == '\n' then some 0 else none

/-- Length of a match of the paragraph separator `\n\s*\n` anchored at the
head of `l`, if one exists.  Greedy `\s*` with backtracking: the match
extends to the last newline inside the whitespace run that follows the
leading newline. -/
def blankMatchLen : List Char → Option Nat
  | [] => none
  | c :: rest =>
    if c == '\n' then
      match lastNlIdx (rest.takeWhile isPySpace) with
      | some i => some (i + 2)
      | none => none
    else none

/-- `re.split(r'\n\s*\n', text)` scanner: split at each leftmost
non-overlapping match; `cur` holds the current piece, reversed.  The `fuel`
argument only makes the recursion structural: every step consumes at least
one character (a separator match has length ≥ 2), so with `fuel` initialized
to the text length the zero-fuel fallback is never reached. -/
def reSplitAux : Nat → List Char → List Char → List (List Char)
  | _, cur, [] => [cur.reverse]
  | 0, cur, l => [cur.reverse ++ l]
  | fuel + 1, cur, c :: rest =>
    match blankMatchLen (c :: rest) with
    | some n => cur.reverse :: reSplitAux fuel [] ((c :: rest).drop n)
    | none => reSplitAux fuel (c :: cur) rest

/-- The paragraph list `re.split(r'\n\s*\n', text)`. -/
def splitParagraphs (text : String) : List String :=
  (reSplitAux text.data.length [] text.data).map String.mk

/-- The filtering loop of `chunk_text`: clean each paragraph's whitespace,
skip empty ones, keep those whose word count is within [50, 200]. -/
def chunkLoop : List String → List String
  | [] => []
  | para :: rest =>
    if collapseWs para = "" then chunkLoop rest
    else if 50 ≤ numWords (collapseWs para) ∧ numWords (collapseWs para) ≤ 200 then
      collapseWs para :: chunkLoop rest
    else chunkLoop rest

/-- `chunk_text(text, word_count=300)`: the `word_count` parameter is
accepted (default 300 in the source) but ignored; the window is the fixed
50–200 word range. -/
def chunk_text (text : String) (word_count : Nat) : List String :=
  chunkLoop (splitParagraphs text)

/-! ## Header stripping (`strip_gutenberg_headers` in `app/services/ingest.py`) -/

/-- Case-insensitive prefix test (models `re.IGNORECASE` literal matching). -/
def lcPrefixB : List Char → List Char → Bool
  | [], _ => true
  | _ :: _, [] => false
  | a :: as, b :: bs => (a.toLower == b.toLower) && lcPrefixB as bs

/-- Literal part of the start pattern with the `THE` alternative. -/
def START_THE : List Char := "*** START OF THE PROJECT GUTENBERG EBOOK ".data

/-- Literal part of the start pattern with the `THIS` alternative. -/
def START_THIS : List Char := "*** START OF THIS PROJECT GUTENBERG EBOOK ".data

/-- Literal part of the end pattern with the `THE` alternative. -/
def END_THE : List Char := "*** END OF THE PROJECT GUTENBERG EBOOK ".data

/-- Literal part of the end pattern with the `THIS` alternative. -/
def END_THIS : List Char := "*** END OF THIS PROJECT GUTENBERG EBOOK ".data

/-- The closing literal after the greedy `.*`. -/
def STARS_CLOSE : List Char := " ***".data

/-- Match the pattern suffix `.* \*\*\*` at the head of `l`: `.` does not
match a newline, and the greedy `.*` backtracks to the last position of the
current line at which the literal closing ` ***` matches.  Returns the match
length. -/
def tailMatchEnd (l : List Char) : Option Nat :=
  let lineLen := (l.takeWhile (fun c => !(c == '\n'))).length
  (((List.range (lineLen + 1)).filter
      (fun q => isPrefixB STARS_CLOSE (l.drop q))).getLast?).map (fun q => q + 4)

/-- Length of a marker match anchored at the head of `l`.  The regex
alternation `(THE|THIS)` is deterministic here: the two literal prefixes
differ right after `TH`, so at most one of them can match. -/
def markerMatchLen (preThe preThis : List Char) (l : List Char) : Option Nat :=
  if lcPrefixB preThe l then
    (tailMatchEnd (l.drop preThe.length)).map (fun n => preThe.length + n)
  else if lcPrefixB preThis l then
    (tailMatchEnd (l.drop preThis.length)).map (fun n => preThis.length + n)
  else none

/-- `re.search`: the leftmost match of the marker pattern, as a
(start position, end position) pair. -/
def searchMarker (preThe preThis : List Char) : List Char → Option (Nat × Nat)
  | [] =>
    match markerMatchLen preThe preThis [] with
    | some n => some (0, n)
    | none => none
  | c :: rest =>
    match markerMatchLen preThe preThis (c :: rest) with
    | some n => some (0, n)
    | none =>
      match searchMarker preThe preThis rest with
      | some se => some (se.1 + 1, se.2 + 1)
      | none => none

/-- `start_index`: `start_match.end()` when the start marker is found, else 0. -/
def stripStartIndex (l : List Char) : Nat :=
  match searchMarker START_THE START_THIS l with
  | some m => m.2
  | none => 0

/-- `end_index`: `end_match.start()` when the end marker is found, else
`len(text)`. -/
def stripEndIndex (l : List Char) : Nat :=
  match searchMarker END_THE END_THIS l with
  | some m => m.1
  | none => l.length

/-- `strip_gutenberg_headers(text)`: `text[start_index:end_index].strip()`. -/
def strip_gutenberg_headers (text : String) : String :=
  String.mk (pyStrip ((text.data.take (stripEndIndex text.data)).drop
    (stripStartIndex text.data)))

/-! ## Fetch client (`app/services/gutenberg/client.py`)

HTTP traffic is modelled by a response oracle `Nat → Nat → FetchResponse`
(template index, attempt index ↦ response).  A 200 response carries the
already-decoded body: the source decodes UTF-8 with a Latin-1 fallback and
never raises while decoding.  Sleeping (rate limit, backoff) has no
observable effect on the returned value and is not modelled. -/

/-- Outcome of one HTTP GET. -/
inductive FetchResponse where
  | status (code : Nat) (body : String)
  | timeout
  | requestError (msg : String)

/-- `TEXT_URL_PATTERNS[0].format(id=gutenberg_id)`. -/
def TEXT_URL_1 (id : Nat) : String :=
  "https://www.gutenberg.org/cache/epub/" ++ toString id ++ "/pg" ++ toString id ++ ".txt"

/-- `TEXT_URL_PATTERNS[1].format(id=gutenberg_id)`. -/
def TEXT_URL_2 (id : Nat) : String :=
  "https://www.gutenberg.org/files/" ++ toString id ++ "/" ++ toString id ++ "-0.txt"

/-- `TEXT_URL_PATTERNS[2].format(id=gutenberg_id)`. -/
def TEXT_URL_3 (id : Nat) : String :=
  "https://www.gutenberg.org/files/" ++ toString id ++ "/" ++ toString id ++ ".txt"

/-- The ordered template list, with template indices. -/
def textUrls (id : Nat) : List (Nat × String) :=
  [(0, TEXT_URL_1 id), (1, TEXT_URL_2 id), (2, TEXT_URL_3 id)]

/-- `COVER_URL_PATTERN.format(id=gutenberg_id)`. -/
def COVER_URL (id : Nat) : String :=
  "https://www.gutenberg.org/cache/epub/" ++ toString id ++ "/pg" ++ toString id
    ++ ".cover.medium.jpg"

/-- `GutenbergClient.get_cover_url`: deterministic URL, no existence check. -/
def get_cover_url (id : Nat) : Option String :=
  some (COVER_URL id)

/-- `GutenbergFetchError(gutenberg_id, message, retryable)`. -/
structure GutenbergFetchError where
  gutenberg_id : Nat
  message : String
  retryable : Bool
deriving DecidableEq

/-- `str(e)` for a `GutenbergFetchError`: the exception text set by
`super().__init__(f"Book {gutenberg_id}: {message}")`. -/
def fetchErrorStr (e : GutenbergFetchError) : String :=
  "Book " ++ toString e.gutenberg_id ++ ": " ++ e.message

/-- The inner `for attempt in range(max_retries)` loop of `fetch_text` for one
URL template.  `resp a` is the response to the `a`-th request on this
template.  Returns (body on success, error strings appended for this
template, attempt indices actually executed).  The recursion is structural on
`remaining`, the number of loop iterations left (`attempt + remaining =
max_retries` at every call; the `0` case is the loop ending), so 429
(retry after sleeping), 5xx and timeout (retry with backoff while attempts
remain) and the immediate-abandon cases follow the source's branches. -/
def runTemplate (resp : Nat → FetchResponse) (url : String) (maxRetries : Nat) :
    Nat → Nat → Option String × List String × List Nat
  | 0, _ => (none, [], [])
  | remaining + 1, attempt =>
    match resp attempt with
    | .status code body =>
      if code = 200 then (some body, [], [attempt])
      else if code = 404 then (none, [url ++ ": 404 Not Found"], [attempt])
      else if code = 429 then
        let r := runTemplate resp url maxRetries remaining (attempt + 1)
        (r.1, r.2.1, attempt :: r.2.2)
      else if 500 ≤ code then
        if attempt < maxRetries - 1 then
          let r := runTemplate resp url maxRetries remaining (attempt + 1)
          (r.1, r.2.1, attempt :: r.2.2)
        else (none, [url ++ ": " ++ toString code ++ " Server Error"], [attempt])
      else (none, [url ++ ": " ++ toString code], [attempt])
    | .timeout =>
      if attempt < maxRetries - 1 then
        let r := runTemplate resp url maxRetries remaining (attempt + 1)
        (r.1, r.2.1, attempt :: r.2.2)
      else (none, [url ++ ": Timeout after " ++ toString maxRetries ++ " attempts"],
        [attempt])
    | .requestError msg => (none, [url ++ ": " ++ msg], [attempt])

/-- The outer template loop of `fetch_text`, threading the accumulated error
list; when all templates are exhausted it raises the terminal error.  Also
returns the trace of executed (template, attempt) pairs. -/
def fetchTemplates (oracle : Nat → Nat → FetchResponse) (maxRetries : Nat)
    (id : Nat) :
    List (Nat × String) → List String →
      Except GutenbergFetchError String × List (Nat × Nat)
  | [], errs =>
    (.error ⟨id,
      "Could not fetch text: " ++
        (if errs.isEmpty then "Unknown error" else String.intercalate "; " errs),
      false⟩, [])
  | (tIdx, url) :: rest, errs =>
    let r := runTemplate (oracle tIdx) url maxRetries maxRetries 0
    match r.1 with
    | some content => (.ok content, r.2.2.map (fun a => (tIdx, a)))
    | none =>
      let q := fetchTemplates oracle maxRetries id rest (errs ++ r.2.1)
      (q.1, r.2.2.map (fun a => (tIdx, a)) ++ q.2)

/-- `GutenbergClient.fetch_text(gutenberg_id)` under a response oracle,
together with the trace of executed requests. -/
def fetch_text (oracle : Nat → Nat → FetchResponse) (maxRetries : Nat)
    (id : Nat) : Except GutenbergFetchError String × List (Nat × Nat) :=
  fetchTemplates oracle maxRetries id (textUrls id) []

/-- Did this response have status 200? -/
def isOk200 : FetchResponse → Bool
  | .status code _ => code == 200
  | _ => false

/-- Did this response abandon the template unconditionally (404 not-found or
a non-HTTP transport failure)? -/
def isAbandon : FetchResponse → Bool
  | .status code _ => code == 404
  | .requestError _ => true
  | .timeout => false

/-- The failure reasons each template contributes, gathered per template. -/
def templateReasons (oracle : Nat → Nat → FetchResponse) (maxRetries : Nat)
    (id : Nat) : List String :=
  (textUrls id).flatMap
    (fun tu => (runTemplate (oracle tu.1) tu.2 maxRetries maxRetries 0).2.1)

/-- An oracle whose every response is 404, used to instantiate witnesses. -/
def oracle404 : Nat → Nat → FetchResponse := fun _ _ => .status 404 ""

/-! ## Orchestrator (`app/services/gutenberg/pipeline.py`)

The SQLAlchemy session is modelled as the list of committed books.  A commit
either succeeds, hits an `IntegrityError` because a concurrent transaction
inserted a row with the same `gutenberg_id` (`other`), or fails for another
reason; in the failure cases the transaction's own inserts are rolled back.
Scoring enters through an abstract `score : String → ℚ` (the configured
analyzer applied by `analyze_vibe`), and each entry's network outcome through
`FetchOutcome`.  Wall-clock duration and the progress callback have no
effect on the returned counters and are not modelled. -/

/-- A persisted `Page` row. -/
structure Page where
  page_number : Nat
  content_text : String
  vibe_score : ℚ
deriving DecidableEq

/-- A persisted `Book` row together with its pages. -/
structure Book where
  gutenberg_id : Nat
  title : String
  author : String
  cover_url : Option String
  pages : List Page
deriving DecidableEq

/-- The storage state: the committed books. -/
structure Db where
  books : List Book
deriving DecidableEq

/-- `BookRepository.get_by_gutenberg_id`. -/
def getByGutenbergId (db : Db) (gid : Nat) : Option Book :=
  db.books.find? (fun b => b.gutenberg_id == gid)

/-- Per-entry network outcome: the fetch returns decoded text, raises a
`GutenbergFetchError`, or an unexpected exception interrupts the entry. -/
inductive FetchOutcome where
  | ok (text : String)
  | fetchErr (e : GutenbergFetchError)
  | unexpectedExc (msg : String)

/-- What happens at `self.db.commit()` for this entry. -/
inductive PersistOutcome where
  | commit
  | integrityError (other : Book)
  | otherError (msg : String)

/-- The external events affecting one entry. -/
structure EntryEnv where
  fetch : FetchOutcome
  persist : PersistOutcome

/-- The page-construction loop of `_create_book_with_pages`:
`enumerate(chunks)` with `page_number = i + 1`. -/
def pagesFromChunks (chunks : List (String × ℚ)) : List Page :=
  chunks.enum.map (fun p => ⟨p.1 + 1, p.2.1, p.2.2⟩)

/-- `GutenbergPipeline._create_book_with_pages`: add the book and all its
pages, then commit; on an `IntegrityError` roll back (the concurrent row
remains), re-read, and return the existing book, re-raising if the re-read
finds nothing; on any other error roll back and re-raise. -/
def createBookWithPages (db : Db) (env : PersistOutcome) (gid : Nat)
    (title author : String) (cover_url : Option String)
    (chunks : List (String × ℚ)) : Db × Except String Book :=
  match env with
  | .commit =>
    (⟨db.books ++ [⟨gid, title, author, cover_url, pagesFromChunks chunks⟩]⟩,
      .ok ⟨gid, title, author, cover_url, pagesFromChunks chunks⟩)
  | .integrityError other =>
    match getByGutenbergId ⟨db.books ++ [other]⟩ gid with
    | some existing => (⟨db.books ++ [other]⟩, .ok existing)
    | none => (⟨db.books ++ [other]⟩, .error "IntegrityError")
  | .otherError msg => (db, .error msg)

/-- The scoring loop of `_process_text`: keep chunks whose stripped text is
non-empty, pairing each with its score. -/
def scoreChunks (score : String → ℚ) : List String → List (String × ℚ)
  | [] => []
  | c :: rest =>
    if pyStripStr c ≠ "" then (c, score c) :: scoreChunks score rest
    else scoreChunks score rest

/-- `GutenbergPipeline._process_text`. -/
def processText (score : String → ℚ) (word_count : Nat) (text : String) :
    List (String × ℚ) :=
  scoreChunks score (chunk_text (strip_gutenberg_headers text) word_count)

/-- The exceptions `ingest_book` can let escape to `ingest_batch`. -/
inductive PipeExc where
  | fetchError (e : GutenbergFetchError)
  | unexpected (msg : String)

/-- `GutenbergPipeline.ingest_book`: skip on duplicate, fetch, process,
persist; `none` stands for the source's `None` return (duplicate or zero
chunks). -/
def ingestBook (score : String → ℚ) (word_count : Nat) (db : Db)
    (env : EntryEnv) (gutenberg_id : Nat) (title author : String) :
    Db × Except PipeExc (Option Book) :=
  match getByGutenbergId db gutenberg_id with
  | some _ => (db, .ok none)
  | none =>
    match env.fetch with
    | .fetchErr e => (db, .error (.fetchError e))
    | .unexpectedExc msg => (db, .error (.unexpected msg))
    | .ok raw =>
      if (processText score word_count raw).isEmpty then (db, .ok none)
      else
        match createBookWithPages db env.persist gutenberg_id title author
          (get_cover_url gutenberg_id) (processText score word_count raw) with
        | (db', .ok book) => (db', .ok (some book))
        | (db', .error msg) => (db', .error (.unexpected msg))

/-- One catalog entry as handed to `ingest_batch`. -/
structure Entry where
  gutenberg_id : Nat
  title : String
  author : String

/-- The statistics `ingest_batch` returns (duration not modelled). -/
structure IngestionResult where
  books_processed : Nat
  books_skipped : Nat
  books_failed : Nat
  pages_created : Nat
  high_vibe_pages : Nat
  errors : List String
deriving DecidableEq

/-- The per-entry loop of `ingest_batch`: `None` counts as skipped, a
returned book as processed (with page and high-vibe counters), a
`GutenbergFetchError` and any unexpected exception as failed with an error
string appended; the loop always continues with the next entry. -/
def ingestBatchAux (score : String → ℚ) (word_count : Nat)
    (vibe_threshold : ℚ) :
    Db → List (Entry × EntryEnv) → IngestionResult → Db × IngestionResult
  | db, [], acc => (db, acc)
  | db, (entry, env) :: rest, acc =>
    match ingestBook score word_count db env entry.gutenberg_id entry.title
      entry.author with
    | (db', .ok none) =>
      ingestBatchAux score word_count vibe_threshold db' rest
        { acc with books_skipped := acc.books_skipped + 1 }
    | (db', .ok (some book)) =>
      ingestBatchAux score word_count vibe_threshold db' rest
        { acc with
          books_processed := acc.books_processed + 1,
          pages_created := acc.pages_created + book.pages.length,
          high_vibe_pages := acc.high_vibe_pages +
            (book.pages.filter (fun p => vibe_threshold < p.vibe_score)).length }
    | (db', .error (.fetchError e)) =>
      ingestBatchAux score word_count vibe_threshold db' rest
        { acc with
          books_failed := acc.books_failed + 1,
          errors := acc.errors ++ [fetchErrorStr e] }
    | (db', .error (.unexpected msg)) =>
      ingestBatchAux score word_count vibe_threshold db' rest
        { acc with
          books_failed := acc.books_failed + 1,
          errors := acc.errors ++ ["Book " ++ toString entry.gutenberg_id ++
            ": Unexpected error - " ++ msg] }

/-- `GutenbergPipeline.ingest_batch`: counters start at zero, errors empty. -/
def ingestBatch (score : String → ℚ) (word_count : Nat) (vibe_threshold : ℚ)
    (db : Db) (entries : List (Entry × EntryEnv)) : Db × IngestionResult :=
  ingestBatchAux score word_count vibe_threshold db entries ⟨0, 0, 0, 0, 0, []⟩

/-- A constant scoring function for concrete pipeline instances. -/
def score0 : String → ℚ := fun _ => 0

/-- A 50-word single-paragraph text: it survives chunking as one chunk. -/
def rawGood : String := "w w w w w w w w w w w w w w w w w w w w w w w w w w w w w w w w w w w w w w w w w w w w w w w w w w"

/-- Entry 2's terminal fetch error in the three-entry scenario, as raised by
the client model when every template 404s. -/
def err2C3 : GutenbergFetchError := ⟨2, "Could not fetch text: https://www.gutenberg.org/cache/epub/2/pg2.txt: 404 Not Found; https://www.gutenberg.org/files/2/2-0.txt: 404 Not Found; https://www.gutenberg.org/files/2/2.txt: 404 Not Found", false⟩

/-- The three-entry scenario: entries 1 and 3 fetch a good single-paragraph
text, entry 2's fetch fails terminally. -/
def entriesScenario : List (Entry × EntryEnv) :=
  [(⟨1, "B1", "A1"⟩, ⟨.ok rawGood, .commit⟩),
   (⟨2, "B2", "A2"⟩, ⟨.fetchErr err2C3, .commit⟩),
   (⟨3, "B3", "A3"⟩, ⟨.ok rawGood, .commit⟩)]

/-! ## Theorems -/

theorem fold_bonus_ge (t : String) (c : ℚ) (hc : 0 ≤ c) :
    ∀ (l : List String) (x : ℚ),
      x ≤ List.foldl (fun acc w => if strContains t w then acc + c else acc) x l := by
  intro l
  induction l with
  | nil => intro x; exact le_refl x
  | cons a l ih =>
    intro x
    refine le_trans ?_ (ih (if strContains t a then x + c else x))
    by_cases h : strContains t a
    · simp [h]; linarith
    · simp [h]

theorem hybridAnalyze_eq (tb : String → Blob) (text : String) :
    hybridAnalyze tb text =
      min (max (((tb text).polarity + 1) / 2 * 0.7 + (tb text).subjectivity * 0.3) 0.0) 1.0 := rfl

theorem clamp01_nonneg (x : ℚ) : 0 ≤ min (max x 0.0) 1.0 :=
  le_min (le_trans (by norm_num) (le_max_right x 0.0)) (by norm_num)

theorem clamp01_le_one (x : ℚ) : min (max x 0.0) 1.0 ≤ 1 := by
  have := min_le_right (max x 0.0) 1.0
  linarith

theorem hybridAnalyze_nonneg (tb : String → Blob) (text : String) :
    0 ≤ hybridAnalyze tb text := by
  rw [hybridAnalyze_eq]; exact clamp01_nonneg _

theorem hybridAnalyze_le_one (tb : String → Blob) (text : String) :
    hybridAnalyze tb text ≤ 1 := by
  rw [hybridAnalyze_eq]; exact clamp01_le_one _

theorem literaryAnalyze_eq (tb : String → Blob) (text : String) :
    literaryAnalyze tb text =
      min (max (hybridAnalyze tb text +
        min
          (if 4 ≤ countQuotes text then
            DESCRIPTIVE_WORDS.foldl
              (fun acc w => if strContains (pyLower text) w then acc + 0.01 else acc)
              (POSITIVE_WORDS.foldl
                (fun acc w => if strContains (pyLower text) w then acc + 0.015 else acc)
                0.0) + 0.03
          else
            DESCRIPTIVE_WORDS.foldl
              (fun acc w => if strContains (pyLower text) w then acc + 0.01 else acc)
              (POSITIVE_WORDS.foldl
                (fun acc w => if strContains (pyLower text) w then acc + 0.015 else acc)
                0.0))
          0.15) 0.0) 1.0 := rfl

theorem literary_decomp (tb : String → Blob) (text : String) :
    ∃ k : ℚ, 0 ≤ k ∧
      literaryAnalyze tb text = min (max (hybridAnalyze tb text + k) 0.0) 1.0 := by
  refine ⟨_, ?_, literaryAnalyze_eq tb text⟩
  refine le_min ?_ (by norm_num)
  have h1 : (0.0:ℚ) ≤ POSITIVE_WORDS.foldl
      (fun (acc : ℚ) w => if strContains (pyLower text) w then acc + 0.015 else acc) 0.0 :=
    fold_bonus_ge (pyLower text) 0.015 (by norm_num) POSITIVE_WORDS 0.0
  have h2 : POSITIVE_WORDS.foldl
      (fun (acc : ℚ) w => if strContains (pyLower text) w then acc + 0.015 else acc) 0.0 ≤
      DESCRIPTIVE_WORDS.foldl
      (fun (acc : ℚ) w => if strContains (pyLower text) w then acc + 0.01 else acc)
      (POSITIVE_WORDS.foldl
        (fun (acc : ℚ) w => if strContains (pyLower text) w then acc + 0.015 else acc) 0.0) :=
    fold_bonus_ge (pyLower text) 0.01 (by norm_num) DESCRIPTIVE_WORDS _
  by_cases hq : 4 ≤ countQuotes text
  · simp only [hq, if_true]
    norm_num at h1 ⊢
    linarith
  · simp only [hq, if_false]
    norm_num at h1 ⊢
    linarith

/-- Claim C4: for every text containing at least 2 distinct positive-sentiment
keywords (case-insensitive substring match) and at least 2 complete quoted
spans (at least 4 quotation marks), the Literary analyzer's score is ≥ the
Hybrid analyzer's score for the identical text (for any measurement
function `tb` shared by the two analyzers). -/
theorem literary_ge_hybrid (tb : String → Blob) (text : String)
    (hpos : 2 ≤ (POSITIVE_WORDS.filter (fun w => strContains (pyLower text) w)).length)
    (hq : 4 ≤ countQuotes text) :
    hybridAnalyze tb text ≤ literaryAnalyze tb text := by
  obtain ⟨k, hk, heq⟩ := literary_decomp tb text
  rw [heq]
  have hb0 := hybridAnalyze_nonneg tb text
  have hb1 := hybridAnalyze_le_one tb text
  refine le_min (le_trans ?_ (le_max_left _ _)) ?_
  · linarith
  · norm_num; linarith

/-- Witness for C4 at a concrete text with two positive keywords and two
complete quoted spans. -/
theorem literary_ge_hybrid_witness :
    (2 ≤ (POSITIVE_WORDS.filter
        (fun w => strContains (pyLower "love hope \"a\" \"b\"") w)).length
      ∧ 4 ≤ countQuotes "love hope \"a\" \"b\"")
    ∧ hybridAnalyze tbZero "love hope \"a\" \"b\"" ≤
        literaryAnalyze tbZero "love hope \"a\" \"b\"" :=
  ⟨⟨by decide, by decide⟩,
    literary_ge_hybrid tbZero "love hope \"a\" \"b\"" (by decide) (by decide)⟩

/-- Claim C5: for every analyzer variant and every input text, if the
underlying polarity measurement lies in [-1, 1] and the subjectivity
measurement lies in [0, 1], the returned score lies in [0, 1]. -/
theorem scores_in_unit_interval (tb : String → Blob) (text : String)
    (hp1 : -1 ≤ (tb text).polarity) (hp2 : (tb text).polarity ≤ 1)
    (hs1 : 0 ≤ (tb text).subjectivity) (hs2 : (tb text).subjectivity ≤ 1) :
    (0 ≤ textBlobAnalyze tb text ∧ textBlobAnalyze tb text ≤ 1)
    ∧ (0 ≤ hybridAnalyze tb text ∧ hybridAnalyze tb text ≤ 1)
    ∧ (0 ≤ literaryAnalyze tb text ∧ literaryAnalyze tb text ≤ 1) := by
  obtain ⟨k, hk, heq⟩ := literary_decomp tb text
  refine ⟨⟨?_, ?_⟩, ⟨hybridAnalyze_nonneg tb text, hybridAnalyze_le_one tb text⟩,
    ⟨?_, ?_⟩⟩
  · unfold textBlobAnalyze; linarith
  · unfold textBlobAnalyze; linarith
  · rw [heq]; exact clamp01_nonneg _
  · rw [heq]; exact clamp01_le_one _

/-- Witness for C5 at the zero measurement function and the empty text. -/
theorem scores_in_unit_interval_witness :
    (-1 ≤ (tbZero "").polarity ∧ (tbZero "").polarity ≤ 1
      ∧ 0 ≤ (tbZero "").subjectivity ∧ (tbZero "").subjectivity ≤ 1)
    ∧ ((0 ≤ textBlobAnalyze tbZero "" ∧ textBlobAnalyze tbZero "" ≤ 1)
      ∧ (0 ≤ hybridAnalyze tbZero "" ∧ hybridAnalyze tbZero "" ≤ 1)
      ∧ (0 ≤ literaryAnalyze tbZero "" ∧ literaryAnalyze tbZero "" ≤ 1)) :=
  ⟨⟨by norm_num [tbZero], by norm_num [tbZero], by norm_num [tbZero],
      by norm_num [tbZero]⟩,
    scores_in_unit_interval tbZero "" (by norm_num [tbZero]) (by norm_num [tbZero])
      (by norm_num [tbZero]) (by norm_num [tbZero])⟩

theorem chunkLoop_sublist (l : List String) :
    List.Sublist (chunkLoop l) (l.map collapseWs) := by
  induction l with
  | nil => simp [chunkLoop]
  | cons para rest ih =>
    simp only [chunkLoop, List.map_cons]
    split_ifs with h1 h2
    · exact ih.cons _
    · exact ih.cons₂ _
    · exact ih.cons _

theorem chunkLoop_mem (l : List String) :
    ∀ c ∈ chunkLoop l,
      (∃ p ∈ l, c = collapseWs p) ∧ 50 ≤ numWords c ∧ numWords c ≤ 200 := by
  induction l with
  | nil => intro c hc; simp [chunkLoop] at hc
  | cons para rest ih =>
    intro c hc
    simp only [chunkLoop] at hc
    split_ifs at hc with h1 h2
    · obtain ⟨⟨p, hp, hcp⟩, hw⟩ := ih c hc
      exact ⟨⟨p, List.mem_cons_of_mem _ hp, hcp⟩, hw⟩
    · rcases List.mem_cons.mp hc with hhead | htail
      · exact ⟨⟨para, List.mem_cons_self _ _, hhead⟩, hhead ▸ h2⟩
      · obtain ⟨⟨p, hp, hcp⟩, hw⟩ := ih c htail
        exact ⟨⟨p, List.mem_cons_of_mem _ hp, hcp⟩, hw⟩
    · obtain ⟨⟨p, hp, hcp⟩, hw⟩ := ih c hc
      exact ⟨⟨p, List.mem_cons_of_mem _ hp, hcp⟩, hw⟩

/-- Claim C6: every chunk returned by `chunk_text` is the whitespace-collapsed
form of one of the input's paragraphs (split on blank-line boundaries) and
its word count lies in the inclusive [50, 200] window; the returned list is
an order-preserving sublist (no duplication, no synthesized text) of the
collapsed paragraph list; the output is empty for the degenerate empty input. -/
theorem chunk_text_spec (text : String) (wc : Nat) :
    List.Sublist (chunk_text text wc) ((splitParagraphs text).map collapseWs)
    ∧ (∀ c ∈ chunk_text text wc,
        (∃ p ∈ splitParagraphs text, c = collapseWs p)
        ∧ 50 ≤ numWords c ∧ numWords c ≤ 200)
    ∧ chunk_text "" wc = [] :=
  ⟨chunkLoop_sublist _, chunkLoop_mem _, rfl⟩

theorem pyStrip_eq (l : List Char) :
    pyStrip l = List.rdropWhile isPySpace (List.dropWhile isPySpace l) := rfl

theorem dropWhile_eq_self_of_prefix {p : Char → Bool} {l₁ l₂ : List Char}
    (h : l₁ <+: l₂) (h2 : l₂.dropWhile p = l₂) : l₁.dropWhile p = l₁ := by
  match l₁, h with
  | [], _ => simp
  | a :: t, ⟨u, hu⟩ =>
    by_cases hp : p a
    · exfalso
      rw [← hu, List.cons_append, List.dropWhile_cons_of_pos hp] at h2
      have hle := (List.dropWhile_suffix (l := t ++ u) p).sublist.length_le
      rw [h2] at hle
      simp at hle
    · exact List.dropWhile_cons_of_neg hp

theorem pyStrip_idem (l : List Char) : pyStrip (pyStrip l) = pyStrip l := by
  rw [pyStrip_eq, pyStrip_eq]
  have hfix : List.dropWhile isPySpace (List.dropWhile isPySpace l) =
      List.dropWhile isPySpace l := List.dropWhile_idempotent _ _
  have hpre : List.rdropWhile isPySpace (List.dropWhile isPySpace l) <+:
      List.dropWhile isPySpace l := List.rdropWhile_prefix _ _
  have h1 : List.dropWhile isPySpace
      (List.rdropWhile isPySpace (List.dropWhile isPySpace l)) =
      List.rdropWhile isPySpace (List.dropWhile isPySpace l) :=
    dropWhile_eq_self_of_prefix hpre hfix
  rw [h1, List.rdropWhile_idempotent]

theorem pyStrip_infix (l : List Char) : List.IsInfix (pyStrip l) l := by
  rw [pyStrip_eq]
  obtain ⟨u, hu⟩ := List.rdropWhile_prefix isPySpace (List.dropWhile isPySpace l)
  obtain ⟨v, hv⟩ := List.dropWhile_suffix (l := l) isPySpace
  exact ⟨v, u, by rw [List.append_assoc, hu, hv]⟩

/-- Claim C7: for every text containing both a start marker and an end marker
(case-insensitive search), `strip_gutenberg_headers` returns a stripped piece
of the region after the start match and before the end match (all content
strictly before the start marker and strictly after the end marker is
excluded, no leading/trailing whitespace); for text with neither marker it
returns the text stripped; an absent marker defaults that boundary to the
start or end of the text; the function is total, so it never fails on
malformed input. -/
theorem strip_gutenberg_headers_spec (text : String) :
    pyStrip (strip_gutenberg_headers text).data = (strip_gutenberg_headers text).data
    ∧ (∀ s e s2 e2,
        searchMarker START_THE START_THIS text.data = some (s, e) →
        searchMarker END_THE END_THIS text.data = some (s2, e2) →
        List.IsInfix (strip_gutenberg_headers text).data ((text.data.take s2).drop e))
    ∧ (searchMarker START_THE START_THIS text.data = none →
        searchMarker END_THE END_THIS text.data = none →
        strip_gutenberg_headers text = pyStripStr text)
    ∧ (∀ s2 e2,
        searchMarker START_THE START_THIS text.data = none →
        searchMarker END_THE END_THIS text.data = some (s2, e2) →
        (strip_gutenberg_headers text).data = pyStrip (text.data.take s2))
    ∧ (∀ s e,
        searchMarker START_THE START_THIS text.data = some (s, e) →
        searchMarker END_THE END_THIS text.data = none →
        (strip_gutenberg_headers text).data = pyStrip (text.data.drop e)) := by
  refine ⟨pyStrip_idem _, ?_, ?_, ?_, ?_⟩
  · intro s e s2 e2 h1 h2
    have hd : (strip_gutenberg_headers text).data =
        pyStrip ((text.data.take s2).drop e) := by
      simp [strip_gutenberg_headers, stripStartIndex, stripEndIndex, h1, h2]
    rw [hd]
    exact pyStrip_infix _
  · intro h1 h2
    simp only [strip_gutenberg_headers, stripStartIndex, stripEndIndex, h1, h2]
    rw [List.take_length, List.drop_zero]
    rfl
  · intro s2 e2 h1 h2
    simp [strip_gutenberg_headers, stripStartIndex, stripEndIndex, h1, h2]
  · intro s e h1 h2
    simp only [strip_gutenberg_headers, stripStartIndex, stripEndIndex, h1, h2]
    rw [List.take_length]

/-- Witness for C7 at a concrete text containing both markers. -/
theorem strip_gutenberg_headers_spec_witness :
    searchMarker START_THE START_THIS ("x\n*** START OF THE PROJECT GUTENBERG EBOOK A ***\nhi\n*** END OF THE PROJECT GUTENBERG EBOOK A ***\ny").data = some (2, 48)
    ∧ searchMarker END_THE END_THIS ("x\n*** START OF THE PROJECT GUTENBERG EBOOK A ***\nhi\n*** END OF THE PROJECT GUTENBERG EBOOK A ***\ny").data = some (52, 96)
    ∧ List.IsInfix (strip_gutenberg_headers "x\n*** START OF THE PROJECT GUTENBERG EBOOK A ***\nhi\n*** END OF THE PROJECT GUTENBERG EBOOK A ***\ny").data
        ((("x\n*** START OF THE PROJECT GUTENBERG EBOOK A ***\nhi\n*** END OF THE PROJECT GUTENBERG EBOOK A ***\ny").data.take 52).drop 48) :=
  ⟨by decide, by decide,
    (strip_gutenberg_headers_spec "x\n*** START OF THE PROJECT GUTENBERG EBOOK A ***\nhi\n*** END OF THE PROJECT GUTENBERG EBOOK A ***\ny").2.1 2 48 52 96 (by decide) (by decide)⟩

theorem runTemplate_trace_shape (resp : Nat → FetchResponse) (url : String)
    (maxRetries : Nat) :
    ∀ remaining attempt, ∃ k, k ≤ remaining ∧
      (runTemplate resp url maxRetries remaining attempt).2.2 =
        List.range' attempt k := by
  intro remaining
  induction remaining with
  | zero => intro attempt; exact ⟨0, le_refl 0, rfl⟩
  | succ rem ih =>
    intro attempt
    simp only [runTemplate]
    cases hr : resp attempt with
    | status code body =>
      by_cases h200 : code = 200
      · exact ⟨1, by omega, by simp [h200]⟩
      · by_cases h404 : code = 404
        · exact ⟨1, by omega, by simp [h200, h404]⟩
        · by_cases h429 : code = 429
          · obtain ⟨k, hk, htr⟩ := ih (attempt + 1)
            exact ⟨k + 1, by omega, by
              simp [h200, h404, h429, htr, List.range'_succ]⟩
          · by_cases h5 : 500 ≤ code
            · by_cases hlast : attempt < maxRetries - 1
              · obtain ⟨k, hk, htr⟩ := ih (attempt + 1)
                exact ⟨k + 1, by omega, by
                  simp [h200, h404, h429, h5, hlast, htr, List.range'_succ]⟩
              · exact ⟨1, by omega, by simp [h200, h404, h429, h5, hlast]⟩
            · exact ⟨1, by omega, by simp [h200, h404, h429, h5]⟩
    | timeout =>
      by_cases hlast : attempt < maxRetries - 1
      · obtain ⟨k, hk, htr⟩ := ih (attempt + 1)
        exact ⟨k + 1, by omega, by
          simp [hlast, htr, List.range'_succ]⟩
      · exact ⟨1, by omega, by simp [hlast]⟩
    | requestError msg => exact ⟨1, by omega, rfl⟩

theorem runTemplate_mem_ge (resp : Nat → FetchResponse) (url : String)
    (maxRetries : Nat) (remaining attempt a : Nat)
    (ha : a ∈ (runTemplate resp url maxRetries remaining attempt).2.2) :
    attempt ≤ a := by
  obtain ⟨k, _, htr⟩ := runTemplate_trace_shape resp url maxRetries remaining attempt
  rw [htr] at ha
  exact (List.mem_range'_1.mp ha).1

theorem runTemplate_none_no200 (resp : Nat → FetchResponse) (url : String)
    (maxRetries : Nat) :
    ∀ remaining attempt,
      (runTemplate resp url maxRetries remaining attempt).1 = none →
      ∀ a ∈ (runTemplate resp url maxRetries remaining attempt).2.2,
        isOk200 (resp a) = false := by
  intro remaining
  induction remaining with
  | zero => intro attempt _ a ha; simp [runTemplate] at ha
  | succ rem ih =>
    intro attempt hnone a ha
    simp only [runTemplate] at hnone ha
    cases hr : resp attempt with
    | status code body =>
      rw [hr] at hnone ha
      by_cases h200 : code = 200
      · simp [h200] at hnone
      · by_cases h404 : code = 404
        · simp [h200, h404] at ha
          rw [ha, hr]; simp [isOk200, h200]
        · by_cases h429 : code = 429
          · simp [h200, h404, h429] at hnone ha
            rcases ha with ha | ha
            · rw [ha, hr]; simp [isOk200, h200]
            · exact ih (attempt + 1) hnone a ha
          · by_cases h5 : 500 ≤ code
            · by_cases hlast : attempt < maxRetries - 1
              · simp [h200, h404, h429, h5, hlast] at hnone ha
                rcases ha with ha | ha
                · rw [ha, hr]; simp [isOk200, h200]
                · exact ih (attempt + 1) hnone a ha
              · simp [h200, h404, h429, h5, hlast] at ha
                rw [ha, hr]; simp [isOk200, h200]
            · simp [h200, h404, h429, h5] at ha
              rw [ha, hr]; simp [isOk200, h200]
    | timeout =>
      rw [hr] at hnone ha
      by_cases hlast : attempt < maxRetries - 1
      · simp [hlast] at hnone ha
        rcases ha with ha | ha
        · rw [ha, hr]; simp [isOk200]
        · exact ih (attempt + 1) hnone a ha
      · simp [hlast] at ha
        rw [ha, hr]; simp [isOk200]
    | requestError msg =>
      rw [hr] at ha
      simp at ha
      rw [ha, hr]; simp [isOk200]

theorem runTemplate_some_mem (resp : Nat → FetchResponse) (url : String)
    (maxRetries : Nat) :
    ∀ remaining attempt s,
      (runTemplate resp url maxRetries remaining attempt).1 = some s →
      ∃ a ∈ (runTemplate resp url maxRetries remaining attempt).2.2,
        isOk200 (resp a) = true := by
  intro remaining
  induction remaining with
  | zero => intro attempt s hs; simp [runTemplate] at hs
  | succ rem ih =>
    intro attempt s hs
    simp only [runTemplate]
    simp only [runTemplate] at hs
    cases hr : resp attempt with
    | status code body =>
      rw [hr] at hs
      by_cases h200 : code = 200
      · refine ⟨attempt, ?_, ?_⟩
        · simp [hr, h200]
        · rw [hr]; simp [isOk200, h200]
      · by_cases h404 : code = 404
        · simp [h200, h404] at hs
        · by_cases h429 : code = 429
          · simp [h200, h404, h429] at hs
            obtain ⟨a, ha, hok⟩ := ih (attempt + 1) s hs
            exact ⟨a, by simp [hr, h200, h404, h429]; right; exact ha, hok⟩
          · by_cases h5 : 500 ≤ code
            · by_cases hlast : attempt < maxRetries - 1
              · simp [h200, h404, h429, h5, hlast] at hs
                obtain ⟨a, ha, hok⟩ := ih (attempt + 1) s hs
                exact ⟨a, by simp [hr, h200, h404, h429, h5, hlast]; right; exact ha,
                  hok⟩
              · simp [h200, h404, h429, h5, hlast] at hs
            · simp [h200, h404, h429, h5] at hs
    | timeout =>
      rw [hr] at hs
      by_cases hlast : attempt < maxRetries - 1
      · simp [hlast] at hs
        obtain ⟨a, ha, hok⟩ := ih (attempt + 1) s hs
        exact ⟨a, by simp [hr, hlast]; right; exact ha, hok⟩
      · simp [hlast] at hs
    | requestError msg =>
      rw [hr] at hs
      simp at hs

theorem runTemplate_abandon (resp : Nat → FetchResponse) (url : String)
    (maxRetries : Nat) :
    ∀ remaining attempt a b,
      a ∈ (runTemplate resp url maxRetries remaining attempt).2.2 →
      b ∈ (runTemplate resp url maxRetries remaining attempt).2.2 →
      a < b → isAbandon (resp a) = false := by
  intro remaining
  induction remaining with
  | zero => intro attempt a b ha _ _; simp [runTemplate] at ha
  | succ rem ih =>
    intro attempt a b ha hb hab
    simp only [runTemplate] at ha hb
    cases hr : resp attempt with
    | status code body =>
      rw [hr] at ha hb
      by_cases h200 : code = 200
      · simp [h200] at ha hb; omega
      · by_cases h404 : code = 404
        · simp [h200, h404] at ha hb; omega
        · by_cases h429 : code = 429
          · simp [h200, h404, h429] at ha hb
            rcases ha with ha | ha
            · rw [ha, hr]; simp [isAbandon, h404]
            · rcases hb with hb | hb
              · have := runTemplate_mem_ge resp url maxRetries rem (attempt + 1) a ha
                omega
              · exact ih (attempt + 1) a b ha hb hab
          · by_cases h5 : 500 ≤ code
            · by_cases hlast : attempt < maxRetries - 1
              · simp [h200, h404, h429, h5, hlast] at ha hb
                rcases ha with ha | ha
                · rw [ha, hr]; simp [isAbandon, h404]
                · rcases hb with hb | hb
                  · have := runTemplate_mem_ge resp url maxRetries rem (attempt + 1) a ha
                    omega
                  · exact ih (attempt + 1) a b ha hb hab
              · simp [h200, h404, h429, h5, hlast] at ha hb; omega
            · simp [h200, h404, h429, h5] at ha hb; omega
    | timeout =>
      rw [hr] at ha hb
      by_cases hlast : attempt < maxRetries - 1
      · simp [hlast] at ha hb
        rcases ha with ha | ha
        · rw [ha, hr]; simp [isAbandon]
        · rcases hb with hb | hb
          · have := runTemplate_mem_ge resp url maxRetries rem (attempt + 1) a ha
            omega
          · exact ih (attempt + 1) a b ha hb hab
      · simp [hlast] at ha hb; omega
    | requestError msg =>
      rw [hr] at ha hb
      simp at ha hb; omega

theorem fetchTemplates_error_iff (oracle : Nat → Nat → FetchResponse)
    (mr id : Nat) :
    ∀ (ts : List (Nat × String)) (errs : List String),
      (∃ e, (fetchTemplates oracle mr id ts errs).1 = .error e) ↔
        ∀ tu ∈ ts, (runTemplate (oracle tu.1) tu.2 mr mr 0).1 = none := by
  intro ts
  induction ts with
  | nil =>
    intro errs
    constructor
    · intro _ tu htu; simp at htu
    · intro _; exact ⟨_, rfl⟩
  | cons hd rest ih =>
    intro errs
    obtain ⟨tIdx, url⟩ := hd
    simp only [fetchTemplates]
    cases hres : (runTemplate (oracle tIdx) url mr mr 0).1 with
    | some s =>
      constructor
      · rintro ⟨e, he⟩
        simp [hres] at he
      · intro hall
        have := hall (tIdx, url) (List.mem_cons_self _ _)
        rw [this] at hres
        exact absurd hres (by simp)
    | none =>
      constructor
      · rintro ⟨e, he⟩ tu htu
        rcases List.mem_cons.mp htu with rfl | htu2
        · exact hres
        · have he2 : (fetchTemplates oracle mr id rest
              (errs ++ (runTemplate (oracle tIdx) url mr mr 0).2.1)).1 = .error e := by
            simpa [hres] using he
          exact ((ih (errs ++ (runTemplate (oracle tIdx) url mr mr 0).2.1)).mp
            ⟨e, he2⟩) tu htu2
      · intro hall
        obtain ⟨e, he⟩ := (ih (errs ++ (runTemplate (oracle tIdx) url mr mr 0).2.1)).mpr
          (fun tu htu => hall tu (List.mem_cons_of_mem _ htu))
        exact ⟨e, by simp [hres, he]⟩

theorem fetchTemplates_error_val (oracle : Nat → Nat → FetchResponse)
    (mr id : Nat) :
    ∀ (ts : List (Nat × String)) (errs : List String) (e : GutenbergFetchError),
      (fetchTemplates oracle mr id ts errs).1 = .error e →
      e.gutenberg_id = id ∧ e.retryable = false ∧
      e.message = "Could not fetch text: " ++
        (if (errs ++ ts.flatMap
            (fun tu => (runTemplate (oracle tu.1) tu.2 mr mr 0).2.1)).isEmpty
         then "Unknown error"
         else String.intercalate "; " (errs ++ ts.flatMap
            (fun tu => (runTemplate (oracle tu.1) tu.2 mr mr 0).2.1))) := by
  intro ts
  induction ts with
  | nil =>
    intro errs e he
    simp only [fetchTemplates] at he
    cases he
    simp
  | cons hd rest ih =>
    intro errs e he
    obtain ⟨tIdx, url⟩ := hd
    simp only [fetchTemplates] at he
    cases hres : (runTemplate (oracle tIdx) url mr mr 0).1 with
    | some s => simp [hres] at he
    | none =>
      simp only [hres] at he
      have := ih (errs ++ (runTemplate (oracle tIdx) url mr mr 0).2.1) e he
      refine ⟨this.1, this.2.1, ?_⟩
      rw [this.2.2, List.flatMap_cons, List.append_assoc]

theorem fetchTemplates_ok_mem (oracle : Nat → Nat → FetchResponse)
    (mr id : Nat) :
    ∀ (ts : List (Nat × String)) (errs : List String) (s : String),
      (fetchTemplates oracle mr id ts errs).1 = .ok s →
      ∃ ta ∈ (fetchTemplates oracle mr id ts errs).2,
        isOk200 (oracle ta.1 ta.2) = true := by
  intro ts
  induction ts with
  | nil => intro errs s hs; simp [fetchTemplates] at hs
  | cons hd rest ih =>
    intro errs s hs
    obtain ⟨tIdx, url⟩ := hd
    simp only [fetchTemplates] at hs ⊢
    cases hres : (runTemplate (oracle tIdx) url mr mr 0).1 with
    | some c =>
      simp only [hres] at hs ⊢
      obtain ⟨a, ha, hok⟩ := runTemplate_some_mem (oracle tIdx) url mr mr 0 c hres
      exact ⟨(tIdx, a), List.mem_map_of_mem _ ha, hok⟩
    | none =>
      simp only [hres] at hs ⊢
      obtain ⟨ta, hta, hok⟩ := ih (errs ++ (runTemplate (oracle tIdx) url mr mr 0).2.1) s hs
      exact ⟨ta, List.mem_append_right _ hta, hok⟩

theorem fetchTemplates_trace_mem (oracle : Nat → Nat → FetchResponse)
    (mr id : Nat) :
    ∀ (ts : List (Nat × String)) (errs : List String) (ta : Nat × Nat),
      ta ∈ (fetchTemplates oracle mr id ts errs).2 →
      ∃ tu ∈ ts, ta.1 = tu.1 ∧
        ta.2 ∈ (runTemplate (oracle tu.1) tu.2 mr mr 0).2.2 := by
  intro ts
  induction ts with
  | nil => intro errs ta hta; simp [fetchTemplates] at hta
  | cons hd rest ih =>
    intro errs ta hta
    obtain ⟨tIdx, url⟩ := hd
    simp only [fetchTemplates] at hta
    cases hres : (runTemplate (oracle tIdx) url mr mr 0).1 with
    | some c =>
      simp only [hres] at hta
      obtain ⟨a, ha, rfl⟩ := List.mem_map.mp hta
      exact ⟨(tIdx, url), List.mem_cons_self _ _, rfl, ha⟩
    | none =>
      simp only [hres] at hta
      rcases List.mem_append.mp hta with hta1 | hta2
      · obtain ⟨a, ha, rfl⟩ := List.mem_map.mp hta1
        exact ⟨(tIdx, url), List.mem_cons_self _ _, rfl, ha⟩
      · obtain ⟨tu, htu, h1, h2⟩ := ih _ ta hta2
        exact ⟨tu, List.mem_cons_of_mem _ htu, h1, h2⟩

theorem runTemplate_trace_len (resp : Nat → FetchResponse) (url : String)
    (mr rem att : Nat) :
    (runTemplate resp url mr rem att).2.2.length ≤ rem := by
  obtain ⟨k, hk, htr⟩ := runTemplate_trace_shape resp url mr rem att
  rw [htr, List.length_range']
  exact hk

theorem filter_map_pair (i t : Nat) (l : List Nat) :
    ((l.map (fun a => (i, a))).filter (fun ta => ta.1 == t)) =
      if i = t then l.map (fun a => (i, a)) else [] := by
  induction l with
  | nil => simp
  | cons a l ih =>
    simp only [List.map_cons, List.filter_cons]
    by_cases h : i = t
    · subst h; simp [ih]
    · simp [h, ih]

theorem fetchTemplates_filter_le (oracle : Nat → Nat → FetchResponse)
    (mr id : Nat) :
    ∀ (ts : List (Nat × String)) (errs : List String) (t : Nat),
      (ts.map Prod.fst).Nodup →
      (((fetchTemplates oracle mr id ts errs).2).filter
        (fun ta => ta.1 == t)).length ≤ mr := by
  intro ts
  induction ts with
  | nil => intro errs t _; simp [fetchTemplates]
  | cons hd rest ih =>
    intro errs t hnd
    obtain ⟨tIdx, url⟩ := hd
    rw [List.map_cons, List.nodup_cons] at hnd
    simp only [fetchTemplates]
    cases hres : (runTemplate (oracle tIdx) url mr mr 0).1 with
    | some c =>
      simp only [hres]
      rw [filter_map_pair]
      by_cases h : tIdx = t
      · simp only [h, if_true, List.length_map]
        exact runTemplate_trace_len _ _ _ _ _
      · simp [h]
    | none =>
      simp only [hres]
      rw [List.filter_append, List.length_append, filter_map_pair]
      have hq : (((fetchTemplates oracle mr id rest
          (errs ++ (runTemplate (oracle tIdx) url mr mr 0).2.1)).2).filter
          (fun ta => ta.1 == t)).length ≤ mr := ih _ t hnd.2
      by_cases h : tIdx = t
      · subst h
        have hq0 : (((fetchTemplates oracle mr id rest
            (errs ++ (runTemplate (oracle tIdx) url mr mr 0).2.1)).2).filter
            (fun ta => ta.1 == tIdx)) = [] := by
          rw [List.filter_eq_nil_iff]
          intro ta hta
          obtain ⟨tu, htu, h1, _⟩ := fetchTemplates_trace_mem oracle mr id rest _ ta hta
          have : tu.1 ∈ rest.map Prod.fst := List.mem_map_of_mem _ htu
          simp only [beq_iff_eq]
          intro hcontr
          rw [hcontr] at h1
          exact hnd.1 (h1 ▸ this)
        rw [hq0]
        simp only [if_true, List.length_map, List.length_nil]
        have := runTemplate_trace_len (oracle tIdx) url mr mr 0
        omega
      · simp only [h, if_false, List.length_nil]
        omega

theorem fetchTemplates_abandon (oracle : Nat → Nat → FetchResponse)
    (mr id : Nat) :
    ∀ (ts : List (Nat × String)) (errs : List String),
      (ts.map Prod.fst).Nodup →
      ∀ ta ∈ (fetchTemplates oracle mr id ts errs).2,
        isAbandon (oracle ta.1 ta.2) = true →
        ∀ b, ta.2 < b → (ta.1, b) ∉ (fetchTemplates oracle mr id ts errs).2 := by
  intro ts
  induction ts with
  | nil => intro errs _ ta hta; simp [fetchTemplates] at hta
  | cons hd rest ih =>
    intro errs hnd ta hta hab b hb hmem
    obtain ⟨tIdx, url⟩ := hd
    rw [List.map_cons, List.nodup_cons] at hnd
    simp only [fetchTemplates] at hta hmem
    cases hres : (runTemplate (oracle tIdx) url mr mr 0).1 with
    | some c =>
      simp only [hres] at hta hmem
      obtain ⟨a, ha, rfl⟩ := List.mem_map.mp hta
      obtain ⟨b2, hb2, hpair⟩ := List.mem_map.mp hmem
      have hb2' : b2 = b := (Prod.mk.injEq _ _ _ _ ▸ hpair).2
      have := runTemplate_abandon (oracle tIdx) url mr mr 0 a b ha (hb2' ▸ hb2) hb
      rw [this] at hab
      exact absurd hab (by simp)
    | none =>
      simp only [hres] at hta hmem
      rcases List.mem_append.mp hta with hta1 | hta2
      · obtain ⟨a, ha, rfl⟩ := List.mem_map.mp hta1
        rcases List.mem_append.mp hmem with hm1 | hm2
        · obtain ⟨b2, hb2, hpair⟩ := List.mem_map.mp hm1
          have hb2' : b2 = b := (Prod.mk.injEq _ _ _ _ ▸ hpair).2
          have := runTemplate_abandon (oracle tIdx) url mr mr 0 a b ha (hb2' ▸ hb2) hb
          rw [this] at hab
          exact absurd hab (by simp)
        · obtain ⟨tu, htu, h1, _⟩ :=
            fetchTemplates_trace_mem oracle mr id rest _ (tIdx, b) hm2
          have : tu.1 ∈ rest.map Prod.fst := List.mem_map_of_mem _ htu
          exact hnd.1 (h1 ▸ this)
      · obtain ⟨tu, htu, h1, _⟩ := fetchTemplates_trace_mem oracle mr id rest _ ta hta2
        rcases List.mem_append.mp hmem with hm1 | hm2
        · obtain ⟨b2, _, hpair⟩ := List.mem_map.mp hm1
          have hfst : ta.1 = tIdx := (Prod.mk.injEq _ _ _ _ ▸ hpair).1.symm
          have : tu.1 ∈ rest.map Prod.fst := List.mem_map_of_mem _ htu
          rw [hfst] at h1
          exact hnd.1 (h1 ▸ this)
        · exact ih _ hnd.2 ta hta2 hab b hb hm2

/-- Claim C8: `fetch_text` returns a terminal fetch error iff no executed
request got a 200 response (every template exhausted without success); the
error carries the requested id, a retryable flag that is always false, and a
message concatenating the per-template failure reasons; at most `max_retries`
requests are made per template; and a not-found response or a non-HTTP
transport failure abandons its template immediately — no later attempt is
made on that template. -/
theorem fetch_text_spec (oracle : Nat → Nat → FetchResponse)
    (maxRetries id : Nat) :
    ((∃ e, (fetch_text oracle maxRetries id).1 = .error e) ↔
      ∀ ta ∈ (fetch_text oracle maxRetries id).2,
        isOk200 (oracle ta.1 ta.2) = false)
    ∧ (∀ e, (fetch_text oracle maxRetries id).1 = .error e →
        e.gutenberg_id = id ∧ e.retryable = false ∧
        e.message = "Could not fetch text: " ++
          (if (templateReasons oracle maxRetries id).isEmpty then "Unknown error"
           else String.intercalate "; " (templateReasons oracle maxRetries id)))
    ∧ (∀ t, (((fetch_text oracle maxRetries id).2).filter
        (fun ta => ta.1 == t)).length ≤ maxRetries)
    ∧ (∀ ta ∈ (fetch_text oracle maxRetries id).2,
        isAbandon (oracle ta.1 ta.2) = true →
        ∀ b, ta.2 < b → (ta.1, b) ∉ (fetch_text oracle maxRetries id).2) := by
  have hnd : ((textUrls id).map Prod.fst).Nodup := by simp [textUrls]
  refine ⟨⟨?_, ?_⟩, ?_, ?_, ?_⟩
  · rintro ⟨e, he⟩ ta hta
    have hall := (fetchTemplates_error_iff oracle maxRetries id (textUrls id) []).mp
      ⟨e, he⟩
    obtain ⟨tu, htu, h1, h2⟩ :=
      fetchTemplates_trace_mem oracle maxRetries id (textUrls id) [] ta hta
    have := runTemplate_none_no200 (oracle tu.1) tu.2 maxRetries maxRetries 0
      (hall tu htu) ta.2 h2
    rw [h1]
    exact this
  · intro hall
    cases hres : (fetch_text oracle maxRetries id).1 with
    | ok s =>
      obtain ⟨ta, hta, hok⟩ :=
        fetchTemplates_ok_mem oracle maxRetries id (textUrls id) [] s hres
      have := hall ta hta
      rw [hok] at this
      exact absurd this (by simp)
    | error e => exact ⟨e, rfl⟩
  · intro e he
    have := fetchTemplates_error_val oracle maxRetries id (textUrls id) [] e he
    refine ⟨this.1, this.2.1, ?_⟩
    rw [this.2.2]
    simp [templateReasons]
  · intro t
    exact fetchTemplates_filter_le oracle maxRetries id (textUrls id) [] t hnd
  · exact fetchTemplates_abandon oracle maxRetries id (textUrls id) [] hnd

/-- Witness for C8: with every response 404 and 3 retries allowed, all three
templates are abandoned after one request each and the terminal error carries
id 84, retryable = false, and the three concatenated reasons. -/
theorem fetch_text_spec_witness :
    (fetch_text oracle404 3 84).1 = .error
      ⟨84, "Could not fetch text: https://www.gutenberg.org/cache/epub/84/pg84.txt: 404 Not Found; https://www.gutenberg.org/files/84/84-0.txt: 404 Not Found; https://www.gutenberg.org/files/84/84.txt: 404 Not Found", false⟩
    ∧ ((fetch_text oracle404 3 84).2 = [(0, 0), (1, 0), (2, 0)])
    ∧ ((0, 0) ∈ (fetch_text oracle404 3 84).2 ∧ isAbandon (oracle404 0 0) = true)
    ∧ (0, 1) ∉ (fetch_text oracle404 3 84).2 :=
  ⟨rfl, by decide, ⟨by decide, by decide⟩,
    (fetch_text_spec oracle404 3 84).2.2.2 (0, 0) (by decide) (by decide) 1
      (by decide)⟩

theorem enumFrom_pages (chunks : List (String × ℚ)) : ∀ n : Nat,
    ((chunks.enumFrom n).map (fun p => (⟨p.1 + 1, p.2.1, p.2.2⟩ : Page))).map
        (fun p => p.page_number) = List.range' (n + 1) chunks.length
    ∧ ((chunks.enumFrom n).map (fun p => (⟨p.1 + 1, p.2.1, p.2.2⟩ : Page))).map
        (fun p => p.content_text) = chunks.map Prod.fst
    ∧ ((chunks.enumFrom n).map (fun p => (⟨p.1 + 1, p.2.1, p.2.2⟩ : Page))).map
        (fun p => p.vibe_score) = chunks.map Prod.snd := by
  induction chunks with
  | nil => intro n; simp
  | cons c rest ih =>
    intro n
    obtain ⟨ih1, ih2, ih3⟩ := ih (n + 1)
    refine ⟨?_, ?_, ?_⟩
    · simp only [List.enumFrom, List.map_cons, List.length_cons, List.range'_succ]
      rw [ih1]
    · simp only [List.enumFrom, List.map_cons]
      rw [ih2]
    · simp only [List.enumFrom, List.map_cons]
      rw [ih3]

theorem pagesFromChunks_spec (chunks : List (String × ℚ)) :
    (pagesFromChunks chunks).map (fun p => p.page_number) =
      List.range' 1 chunks.length
    ∧ (pagesFromChunks chunks).map (fun p => p.content_text) = chunks.map Prod.fst
    ∧ (pagesFromChunks chunks).map (fun p => p.vibe_score) = chunks.map Prod.snd :=
  enumFrom_pages chunks 0

/-- Claim C9: a successful persist appends the Work with all its Excerpts as
one state change, the sequence numbers are exactly 1..n in chunk order (the
i-th chunk's text and score land on the page numbered i+1), and a failing
persist rolls back, leaving storage unchanged. -/
theorem create_book_atomic_dense (db : Db) (gid : Nat) (title author : String)
    (cover : Option String) (chunks : List (String × ℚ)) :
    (createBookWithPages db .commit gid title author cover chunks =
      (⟨db.books ++ [⟨gid, title, author, cover, pagesFromChunks chunks⟩]⟩,
        .ok ⟨gid, title, author, cover, pagesFromChunks chunks⟩))
    ∧ ((pagesFromChunks chunks).map (fun p => p.page_number) =
        List.range' 1 chunks.length)
    ∧ ((pagesFromChunks chunks).map (fun p => p.content_text) =
        chunks.map Prod.fst)
    ∧ ((pagesFromChunks chunks).map (fun p => p.vibe_score) =
        chunks.map Prod.snd)
    ∧ (∀ msg, createBookWithPages db (.otherError msg) gid title author cover
        chunks = (db, .error msg)) :=
  ⟨rfl, (pagesFromChunks_spec chunks).1, (pagesFromChunks_spec chunks).2.1,
    (pagesFromChunks_spec chunks).2.2, fun _ => rfl⟩

/-- Claim C1 (amended): an entry whose fetch succeeds but whose processed
text yields zero scored chunks creates no Work (`ingest_book` returns `None`
leaving storage unchanged), and `ingest_batch` counts it in the **skipped**
counter — not the failed counter — records no error, and continues with the
remaining entries. -/
theorem zero_chunks_counted_skipped (score : String → ℚ) (wc : Nat) (thr : ℚ)
    (db : Db) (entry : Entry) (env : EntryEnv) (raw : String)
    (rest : List (Entry × EntryEnv)) (acc : IngestionResult)
    (hfetch : env.fetch = .ok raw)
    (hnew : getByGutenbergId db entry.gutenberg_id = none)
    (hempty : processText score wc raw = []) :
    ingestBook score wc db env entry.gutenberg_id entry.title entry.author =
      (db, .ok none)
    ∧ ingestBatchAux score wc thr db ((entry, env) :: rest) acc =
        ingestBatchAux score wc thr db rest
          { acc with books_skipped := acc.books_skipped + 1 } := by
  have h1 : ingestBook score wc db env entry.gutenberg_id entry.title
      entry.author = (db, .ok none) := by
    simp [ingestBook, hnew, hfetch, hempty]
  refine ⟨h1, ?_⟩
  simp only [ingestBatchAux]
  rw [h1]

/-- Counterexample to C1 as stated: on this concrete batch the zero-chunk
entry increments the skipped counter, the failed counter stays 0, and the
error list stays empty. -/
theorem zero_chunks_not_failed_counterexample :
    (ingestBatch score0 300 0.6 ⟨[]⟩
      [(⟨84, "T", "A"⟩, ⟨.ok "", .commit⟩)]).2.books_failed = 0
    ∧ (ingestBatch score0 300 0.6 ⟨[]⟩
      [(⟨84, "T", "A"⟩, ⟨.ok "", .commit⟩)]).2.books_skipped = 1
    ∧ (ingestBatch score0 300 0.6 ⟨[]⟩
      [(⟨84, "T", "A"⟩, ⟨.ok "", .commit⟩)]).2.errors = []
    ∧ (ingestBatch score0 300 0.6 ⟨[]⟩
      [(⟨84, "T", "A"⟩, ⟨.ok "", .commit⟩)]).1 = ⟨[]⟩ :=
  ⟨rfl, rfl, rfl, rfl⟩

/-- Witness for the amended C1 at a concrete zero-chunk entry. -/
theorem zero_chunks_counted_skipped_witness :
    ((⟨.ok "", .commit⟩ : EntryEnv).fetch = .ok ""
      ∧ getByGutenbergId ⟨[]⟩ 84 = none
      ∧ processText score0 300 "" = [])
    ∧ (ingestBook score0 300 ⟨[]⟩ ⟨.ok "", .commit⟩ 84 "T" "A" = (⟨[]⟩, .ok none)
      ∧ ingestBatchAux score0 300 0.6 ⟨[]⟩
          [(⟨84, "T", "A"⟩, ⟨.ok "", .commit⟩)] ⟨0, 0, 0, 0, 0, []⟩ =
        ingestBatchAux score0 300 0.6 ⟨[]⟩ []
          { (⟨0, 0, 0, 0, 0, []⟩ : IngestionResult) with books_skipped := 0 + 1 }) :=
  ⟨⟨rfl, rfl, rfl⟩,
    zero_chunks_counted_skipped score0 300 0.6 ⟨[]⟩ ⟨84, "T", "A"⟩
      ⟨.ok "", .commit⟩ "" [] ⟨0, 0, 0, 0, 0, []⟩ rfl rfl rfl⟩

/-- Claim C2 (amended): when the persist step hits a uniqueness violation on
the external id at commit time, the transaction is rolled back (only the
concurrent transaction's row remains), the existing Work is re-read and
returned, no error is surfaced to the caller — but `ingest_batch` classifies
the entry as **processed** (incrementing the processed counter and the page
counters from the existing Work), not skipped. -/
theorem duplicate_race_counted_processed (score : String → ℚ) (wc : Nat)
    (thr : ℚ) (db : Db) (entry : Entry) (env : EntryEnv) (raw : String)
    (other : Book) (rest : List (Entry × EntryEnv)) (acc : IngestionResult)
    (hfetch : env.fetch = .ok raw)
    (hnew : getByGutenbergId db entry.gutenberg_id = none)
    (hnonempty : (processText score wc raw).isEmpty = false)
    (hrace : env.persist = .integrityError other)
    (hoth : other.gutenberg_id = entry.gutenberg_id) :
    ingestBook score wc db env entry.gutenberg_id entry.title entry.author =
      (⟨db.books ++ [other]⟩, .ok (some other))
    ∧ ingestBatchAux score wc thr db ((entry, env) :: rest) acc =
        ingestBatchAux score wc thr ⟨db.books ++ [other]⟩ rest
          { acc with
            books_processed := acc.books_processed + 1,
            pages_created := acc.pages_created + other.pages.length,
            high_vibe_pages := acc.high_vibe_pages +
              (other.pages.filter (fun p => thr < p.vibe_score)).length } := by
  have hfind : getByGutenbergId ⟨db.books ++ [other]⟩ entry.gutenberg_id =
      some other := by
    have hn : db.books.find? (fun b => b.gutenberg_id == entry.gutenberg_id) =
        none := hnew
    simp [getByGutenbergId, List.find?_append, hn, hoth]
  have h1 : ingestBook score wc db env entry.gutenberg_id entry.title
      entry.author = (⟨db.books ++ [other]⟩, .ok (some other)) := by
    simp only [ingestBook, hnew, hfetch, hnonempty, Bool.false_eq_true,
      if_false]
    simp [createBookWithPages, hrace, hfind]
  refine ⟨h1, ?_⟩
  simp only [ingestBatchAux]
  rw [h1]

/-- Counterexample to C2 as stated: on this concrete race the recovered
entry increments the processed counter; the skipped counter stays 0 (no
error is recorded, as the claim also says). -/
theorem duplicate_race_not_skipped_counterexample :
    (ingestBatch score0 300 0.6 ⟨[]⟩
      [(⟨84, "T", "A"⟩, ⟨.ok rawGood,
        .integrityError ⟨84, "T", "A", none, []⟩⟩)]).2.books_skipped = 0
    ∧ (ingestBatch score0 300 0.6 ⟨[]⟩
      [(⟨84, "T", "A"⟩, ⟨.ok rawGood,
        .integrityError ⟨84, "T", "A", none, []⟩⟩)]).2.books_processed = 1
    ∧ (ingestBatch score0 300 0.6 ⟨[]⟩
      [(⟨84, "T", "A"⟩, ⟨.ok rawGood,
        .integrityError ⟨84, "T", "A", none, []⟩⟩)]).2.errors = [] :=
  ⟨rfl, rfl, rfl⟩

/-- Witness for the amended C2 at a concrete raced entry. -/
theorem duplicate_race_counted_processed_witness :
    ((⟨.ok rawGood, .integrityError ⟨84, "T", "A", none, []⟩⟩ : EntryEnv).fetch =
        .ok rawGood
      ∧ getByGutenbergId ⟨[]⟩ 84 = none
      ∧ (processText score0 300 rawGood).isEmpty = false
      ∧ (⟨84, "T", "A", none, []⟩ : Book).gutenberg_id = 84)
    ∧ (ingestBook score0 300 ⟨[]⟩
        ⟨.ok rawGood, .integrityError ⟨84, "T", "A", none, []⟩⟩ 84 "T" "A" =
        (⟨[] ++ [⟨84, "T", "A", none, []⟩]⟩, .ok (some ⟨84, "T", "A", none, []⟩))
      ∧ ingestBatchAux score0 300 0.6 ⟨[]⟩
          [(⟨84, "T", "A"⟩, ⟨.ok rawGood,
            .integrityError ⟨84, "T", "A", none, []⟩⟩)] ⟨0, 0, 0, 0, 0, []⟩ =
        ingestBatchAux score0 300 0.6 ⟨[] ++ [⟨84, "T", "A", none, []⟩]⟩ []
          { (⟨0, 0, 0, 0, 0, []⟩ : IngestionResult) with
            books_processed := 0 + 1,
            pages_created := 0 + (⟨84, "T", "A", none, []⟩ : Book).pages.length,
            high_vibe_pages := 0 + ((⟨84, "T", "A", none, []⟩ : Book).pages.filter
              (fun p => (0.6 : ℚ) < p.vibe_score)).length }) :=
  ⟨⟨rfl, rfl, rfl, rfl⟩,
    duplicate_race_counted_processed score0 300 0.6 ⟨[]⟩ ⟨84, "T", "A"⟩
      ⟨.ok rawGood, .integrityError ⟨84, "T", "A", none, []⟩⟩ rawGood
      ⟨84, "T", "A", none, []⟩ [] ⟨0, 0, 0, 0, 0, []⟩ rfl rfl rfl rfl rfl⟩

theorem batch_counts (score : String → ℚ) (wc : Nat) (thr : ℚ) :
    ∀ (entries : List (Entry × EntryEnv)) (db : Db) (acc : IngestionResult),
      ((ingestBatchAux score wc thr db entries acc).2.books_processed +
        (ingestBatchAux score wc thr db entries acc).2.books_skipped +
        (ingestBatchAux score wc thr db entries acc).2.books_failed =
        acc.books_processed + acc.books_skipped + acc.books_failed +
          entries.length)
      ∧ ((ingestBatchAux score wc thr db entries acc).2.errors.length +
          acc.books_failed =
          acc.errors.length +
            (ingestBatchAux score wc thr db entries acc).2.books_failed) := by
  intro entries
  induction entries with
  | nil => intro db acc; simp [ingestBatchAux]
  | cons pe rest ih =>
    intro db acc
    obtain ⟨entry, env⟩ := pe
    simp only [ingestBatchAux]
    rcases hres : ingestBook score wc db env entry.gutenberg_id entry.title
      entry.author with ⟨db2, res⟩
    cases res with
    | ok ob =>
      cases ob with
      | none =>
        dsimp only
        obtain ⟨h1, h2⟩ := ih db2
          { acc with books_skipped := acc.books_skipped + 1 }
        dsimp only at h1 h2
        simp only [List.length_cons]
        constructor
        · rw [h1]; omega
        · rw [h2]
      | some book =>
        dsimp only
        obtain ⟨h1, h2⟩ := ih db2 { acc with
          books_processed := acc.books_processed + 1,
          pages_created := acc.pages_created + book.pages.length,
          high_vibe_pages := acc.high_vibe_pages +
            (book.pages.filter (fun p => thr < p.vibe_score)).length }
        dsimp only at h1 h2
        simp only [List.length_cons]
        constructor
        · rw [h1]; omega
        · rw [h2]
    | error pexc =>
      cases pexc with
      | fetchError e =>
        dsimp only
        obtain ⟨h1, h2⟩ := ih db2 { acc with
          books_failed := acc.books_failed + 1,
          errors := acc.errors ++ [fetchErrorStr e] }
        dsimp only at h1 h2
        simp only [List.length_cons, List.length_append, List.length_nil]
          at h1 h2 ⊢
        omega
      | unexpected msg =>
        dsimp only
        obtain ⟨h1, h2⟩ := ih db2 { acc with
          books_failed := acc.books_failed + 1,
          errors := acc.errors ++ ["Book " ++ toString entry.gutenberg_id ++
            ": Unexpected error - " ++ msg] }
        dsimp only at h1 h2
        simp only [List.length_cons, List.length_append, List.length_nil]
          at h1 h2 ⊢
        omega

/-- Claim C3: `ingest_batch` never aborts on a single-entry fault — every
entry is classified exactly once (processed + skipped + failed grows by the
batch length) and each failure appends exactly one error string.  In the
concrete batch of 3 where entries 1 and 3 succeed and entry 2's fetch
exhausts every template (the client model's terminal 404 error), the result
is processed=2, failed=1, skipped=0 with exactly one error message, which
carries entry 2's external id. -/
theorem ingest_batch_fault_tolerance :
    (∀ (score : String → ℚ) (wc : Nat) (thr : ℚ) (db : Db)
      (entries : List (Entry × EntryEnv)) (acc : IngestionResult),
      ((ingestBatchAux score wc thr db entries acc).2.books_processed +
        (ingestBatchAux score wc thr db entries acc).2.books_skipped +
        (ingestBatchAux score wc thr db entries acc).2.books_failed =
        acc.books_processed + acc.books_skipped + acc.books_failed +
          entries.length)
      ∧ ((ingestBatchAux score wc thr db entries acc).2.errors.length +
          acc.books_failed =
          acc.errors.length +
            (ingestBatchAux score wc thr db entries acc).2.books_failed))
    ∧ (fetch_text oracle404 3 2).1 = .error err2C3
    ∧ (ingestBatch score0 300 0.6 ⟨[]⟩ entriesScenario).2.books_processed = 2
    ∧ (ingestBatch score0 300 0.6 ⟨[]⟩ entriesScenario).2.books_failed = 1
    ∧ (ingestBatch score0 300 0.6 ⟨[]⟩ entriesScenario).2.books_skipped = 0
    ∧ (ingestBatch score0 300 0.6 ⟨[]⟩ entriesScenario).2.errors =
        [fetchErrorStr err2C3]
    ∧ fetchErrorStr err2C3 = "Book 2: Could not fetch text: https://www.gutenberg.org/cache/epub/2/pg2.txt: 404 Not Found; https://www.gutenberg.org/files/2/2-0.txt: 404 Not Found; https://www.gutenberg.org/files/2/2.txt: 404 Not Found" :=
  ⟨fun score wc thr db entries acc => batch_counts score wc thr entries db acc,
    rfl, rfl, rfl, rfl, rfl, rfl⟩

/-- Claim C10: `chunk_text` is independent of its `word_count` argument (the
source accepts it, default 300, but ignores it), `_process_text` passes the
pipeline's configured word count through with no effect, and the accepted
window is the fixed [50, 200] range. -/
theorem chunk_text_ignores_word_count (text : String) (w1 w2 : Nat)
    (score : String → ℚ) (raw : String) :
    chunk_text text w1 = chunk_text text w2
    ∧ processText score w1 raw = processText score w2 raw
    ∧ (∀ c ∈ chunk_text text w1, 50 ≤ numWords c ∧ numWords c ≤ 200) :=
  ⟨rfl, rfl, fun c hc => (chunkLoop_mem _ c hc).2⟩

end Libris
